import Mathlib

/-!
Shallow embedding of `addic7ed/core.py` from the `service.subtitles.rvm.addic7ed`
Kodi subtitle add-on, together with theorems checking the design document's
claims about it.

Modelling conventions:

* The module's collaborators (the `parser` provider client, the `utils`
  helpers `parse_filename` / `normalize_showname` / `get_languages` /
  `get_now_played`, Kodi's `xbmc*` APIs and the add-on settings) are not part
  of `core.py`; they enter the model as fields of an `Env` record, so every
  theorem quantifies over their behaviour unless a claim pins it down.
* Host-visible actions (dialog notifications, directory items, the selection
  dialog, provider calls, staging-directory operations and the final
  `endOfDirectory` signal) are recorded in order in a `List Effect`.
  Logging calls are not modelled: they are not observable by the host UI.
* Python exceptions are modelled with `Except PyExc`; an uncaught exception
  shows up as an `Except.error` result of `router`.
* Strings are Lean `String`s; Python's byte-level behaviour is reproduced
  where it matters (UTF-8 encoding, percent-decoding, `bytes` repr).  The
  add-on runs under Kodi's Python 3 interpreter (the `kodi_six` shims), so
  `'...'.format(b)` of a `bytes` value inserts the `b` repr of the bytes;
  the embedding reproduces that Python 3 behaviour.
* Python string methods used by the source (`lower`, `zfill`, slicing,
  `os.path` helpers, `urllib` quoting) are translated byte-for-byte below;
  `lower` is modelled on ASCII, which covers every string the claims touch.
-/

/-- Python `str.lower` on a character list (ASCII case mapping). -/
def pyLowerChars (cs : List Char) : List Char := cs.map Char.toLower

/-- Python `str.lower` on a string. -/
def pyLower (s : String) : String := ⟨pyLowerChars s.data⟩

/-- Python's substring test `a in b` on character lists. -/
def listInfix (a b : List Char) : Bool :=
  match b with
  | [] => a.isEmpty
  | _ :: t => a.isPrefixOf b || listInfix a t

/-- Inner scan for the optional bracket group of `release_re`, i.e. for
`\[.*?\]` immediately followed by `\.` : succeeds iff some later `]` is
immediately followed by `.`, with only non-newline characters before that
`]` (a regex `.` does not match a newline). -/
def scanBracket : List Char → Bool
  | [] => false
  | c :: rest =>
    (c == ']' && rest.head? == some '.') || ((c != '\n') && scanBracket rest)

/-- Matching of the tail `(.*?)(?:\[.*?\])?\.` of `release_re` at a fixed
start position: the non-greedy group grows one character at a time until the
rest of the pattern matches; returns the characters captured by group 1, or
`none` when no match starts here. -/
def groupFrom : List Char → Option (List Char)
  | [] => none
  | c :: rest =>
    if c == '.' then some []
    else if c == '[' && scanBracket rest then some []
    else if c != '\n' then (groupFrom rest).map (c :: ·)
    else none

/-- Python `re.search` for the module constant
`release_re = re.compile(r'-(.*?)(?:\[.*?\])?\.')` : the leftmost `-` from
which the tail of the pattern matches wins; returns capture group 1. -/
def releaseSearchL : List Char → Option (List Char)
  | [] => none
  | c :: rest =>
    if c == '-' then
      match groupFrom rest with
      | some g => some g
      | none => releaseSearchL rest
    else releaseSearchL rest

/-- `release_re.search(filename)` over strings, returning group 1. -/
def release_re_search (s : String) : Option String :=
  (releaseSearchL s.data).map List.asString

/-- The sync test of `display_subs` (core.py lines 67-70):
`release_match is not None and release_match.group(1).lower() in
item.version.lower()`. -/
def syncMatch (filename version : String) : Bool :=
  match releaseSearchL filename.data with
  | some g => listInfix (pyLowerChars g) (pyLowerChars version.data)
  | none => false

/-- Python `str(n)` for an int. -/
def pyIntStr (n : Int) : String := toString n

/-- Python `str.zfill(w)`: left-pad with zeros to width `w`, keeping a
leading sign in front of the padding. -/
def pyZfill (s : String) (w : Nat) : String :=
  if w ≤ s.length then s
  else
    match s.data with
    | c :: rest =>
      if c == '-' || c == '+' then
        ⟨c :: (List.replicate (w - s.length) '0' ++ rest)⟩
      else ⟨List.replicate (w - s.length) '0' ++ s.data⟩
    | [] => ⟨List.replicate w '0'⟩

/-- Index of the last occurrence of a character in a list. -/
def lastIdxOf (c : Char) : List Char → Option Nat
  | [] => none
  | x :: xs =>
    match lastIdxOf c xs with
    | some i => some (i + 1)
    | none => if x == c then some 0 else none

/-- The extension part of Python `os.path.splitext` on a bare file name
(no directory separator): the suffix from the last `.`, provided some
character strictly before that dot is not itself a dot (so a leading-dots
name such as `.bashrc` has no extension). -/
def splitextExt (cs : List Char) : List Char :=
  match lastIdxOf '.' cs with
  | none => []
  | some i => if (cs.take i).any (fun c => c != '.') then cs.drop i else []

/-- `os.path.splitext(s)[1]` on strings. -/
def pySplitextExt (s : String) : String := ⟨splitextExt s.data⟩

/-- Python `os.path.basename` (POSIX): the part after the last slash. -/
def pyBasename (s : String) : String :=
  match lastIdxOf '/' s.data with
  | none => s
  | some i => ⟨s.data.drop (i + 1)⟩

/-- Python `os.path.join` (POSIX, two arguments). -/
def pyOsJoin (a b : String) : String :=
  if b.data.head? = some '/' then b
  else if a = "" ∨ a.data.getLast? = some '/' then a ++ b
  else a ++ "/" ++ b

/-- Python slice `s[:-3]`. -/
def pyDropLast3 (s : String) : String := ⟨s.data.take (s.data.length - 3)⟩

/-- UTF-8 encoding of one scalar value, as byte values. -/
def utf8EncodeChar (c : Char) : List Nat :=
  let n := c.toNat
  if n < 128 then [n]
  else if n < 2048 then [192 + n / 64, 128 + n % 64]
  else if n < 65536 then [224 + n / 4096, 128 + n / 64 % 64, 128 + n % 64]
  else [240 + n / 262144, 128 + n / 4096 % 64, 128 + n / 64 % 64, 128 + n % 64]

/-- Python `s.encode('utf-8')` as a byte list. -/
def pyUtf8 (s : String) : List Nat := (s.data.map utf8EncodeChar).flatten

/-- Lower-case hexadecimal digit. -/
def hexDigitLower (n : Nat) : Char :=
  if n < 10 then Char.ofNat (48 + n) else Char.ofNat (87 + n)

/-- Upper-case hexadecimal digit. -/
def hexDigitUpper (n : Nat) : Char :=
  if n < 10 then Char.ofNat (48 + n) else Char.ofNat (55 + n)

/-- Python 3 `repr` of a `bytes` value: `b` plus a quoted body.  Single
quotes are used unless the bytes contain a single quote but no double quote;
backslash and the quote are escaped, tab, newline and carriage return use
their short escapes, other non-printable bytes use `\xhh` (lower-case). -/
def pyBytesRepr (bs : List Nat) : String :=
  let q : Nat := if bs.contains 39 && !(bs.contains 34) then 34 else 39
  let esc : Nat → List Char := fun b =>
    if b = 92 then ['\\', '\\']
    else if b = q then ['\\', Char.ofNat q]
    else if b = 9 then ['\\', 't']
    else if b = 10 then ['\\', 'n']
    else if b = 13 then ['\\', 'r']
    else if 32 ≤ b ∧ b < 127 then [Char.ofNat b]
    else ['\\', 'x', hexDigitLower (b / 16), hexDigitLower (b % 16)]
  ⟨'b' :: Char.ofNat q :: ((bs.map esc).flatten ++ [Char.ofNat q])⟩

/-- Value of a hexadecimal digit character, if it is one. -/
def hexVal? (c : Char) : Option Nat :=
  if '0' ≤ c ∧ c ≤ '9' then some (c.toNat - 48)
  else if 'a' ≤ c ∧ c ≤ 'f' then some (c.toNat - 87)
  else if 'A' ≤ c ∧ c ≤ 'F' then some (c.toNat - 55)
  else none

/-- The Unicode replacement character U+FFFD. -/
def replChar : Char := Char.ofNat 0xFFFD

/-- Byte-range test for UTF-8 continuation bytes. -/
def contOk (b lo hi : Nat) : Bool := lo ≤ b && b ≤ hi

/-- UTF-8 decoding of a byte run with replacement of invalid sequences
(Python's `errors='replace'`); valid sequences decode exactly, each rejected
lead byte becomes one U+FFFD.  `fuel` bounds the recursion (pass the length
of the list). -/
def utf8DecodeReplace : Nat → List Nat → List Char
  | 0, _ => []
  | _, [] => []
  | fuel + 1, b :: rest =>
    if b < 128 then Char.ofNat b :: utf8DecodeReplace fuel rest
    else if 194 ≤ b && b ≤ 223 then
      match rest with
      | b2 :: rest2 =>
        if contOk b2 128 191 then
          Char.ofNat ((b - 192) * 64 + (b2 - 128)) :: utf8DecodeReplace fuel rest2
        else replChar :: utf8DecodeReplace fuel rest
      | [] => [replChar]
    else if 224 ≤ b && b ≤ 239 then
      match rest with
      | b2 :: b3 :: rest3 =>
        if contOk b2 (if b = 224 then 160 else 128) (if b = 237 then 159 else 191)
            && contOk b3 128 191 then
          Char.ofNat ((b - 224) * 4096 + (b2 - 128) * 64 + (b3 - 128)) ::
            utf8DecodeReplace fuel rest3
        else replChar :: utf8DecodeReplace fuel rest
      | _ => [replChar]
    else if 240 ≤ b && b ≤ 244 then
      match rest with
      | b2 :: b3 :: b4 :: rest4 =>
        if contOk b2 (if b = 240 then 144 else 128) (if b = 244 then 143 else 191)
            && contOk b3 128 191 && contOk b4 128 191 then
          Char.ofNat ((b - 240) * 262144 + (b2 - 128) * 4096 + (b3 - 128) * 64
              + (b4 - 128)) :: utf8DecodeReplace fuel rest4
        else replChar :: utf8DecodeReplace fuel rest
      | _ => [replChar]
    else replChar :: utf8DecodeReplace fuel rest

/-- Collect a maximal run of consecutive valid `%XX` escapes into bytes,
returning the bytes and the remaining characters. -/
def percentRun : List Char → List Nat × List Char
  | '%' :: a :: b :: rest =>
    (match hexVal? a, hexVal? b with
     | some ha, some hb =>
       let p := percentRun rest
       ((16 * ha + hb) :: p.1, p.2)
     | _, _ => ([], '%' :: a :: b :: rest))
  | l => ([], l)

/-- Python `urllib.parse.unquote` (percent-decoding): each maximal run of
valid `%XX` escapes is decoded as UTF-8 (with replacement), an invalid `%`
stays literal, everything else passes through.  `fuel` bounds the recursion
(pass the length of the list). -/
def unquoteChars : Nat → List Char → List Char
  | 0, l => l
  | fuel + 1, l =>
    match l with
    | [] => []
    | '%' :: a :: b :: rest =>
      (match hexVal? a, hexVal? b with
       | some ha, some hb =>
         let p := percentRun rest
         let run := (16 * ha + hb) :: p.1
         utf8DecodeReplace run.length run ++ unquoteChars fuel p.2
       | _, _ => '%' :: unquoteChars fuel (a :: b :: rest))
    | c :: rest => c :: unquoteChars fuel rest

/-- Python `urllib.parse.unquote` on strings. -/
def pyUnquote (s : String) : String := ⟨unquoteChars s.data.length s.data⟩

/-- Python `urllib.parse.unquote_plus`: `+` becomes a space, then unquote. -/
def pyUnquotePlus (s : String) : String :=
  pyUnquote ⟨s.data.map (fun c => if c == '+' then ' ' else c)⟩

/-- Helper for Python `str.split(sep)` with a one-character separator. -/
def pySplitAux (sep : Char) : List Char → List Char → List (List Char)
  | [], acc => [acc.reverse]
  | c :: rest, acc =>
    if c == sep then acc.reverse :: pySplitAux sep rest []
    else pySplitAux sep rest (c :: acc)

/-- Python `s.split(',')` (keeps empty pieces; `''` gives `['']`). -/
def pySplitComma (s : String) : List String :=
  (pySplitAux ',' s.data []).map List.asString

/-- Bytes that Python 3 `urllib.parse.quote` leaves unescaped:
letters, digits and `_ . - ~`. -/
def quoteSafe (b : Nat) : Bool :=
  (65 ≤ b && b ≤ 90) || (97 ≤ b && b ≤ 122) || (48 ≤ b && b ≤ 57) ||
    b == 95 || b == 46 || b == 45 || b == 126

/-- Python 3 `urllib.parse.quote_plus` over the UTF-8 bytes of a string. -/
def pyQuotePlus (s : String) : String :=
  ⟨((pyUtf8 s).map fun b =>
      if b = 32 then ['+']
      else if quoteSafe b then [Char.ofNat b]
      else ['%', hexDigitUpper (b / 16), hexDigitUpper (b % 16)]).flatten⟩

/-- Python `urllib.parse.urlencode` over an association list in dict
insertion order. -/
def pyUrlencode (ps : List (String × String)) : String :=
  String.intercalate "&" (ps.map fun kv => pyQuotePlus kv.1 ++ "=" ++ pyQuotePlus kv.2)

/-! ## Data model

The types of core.py and of its collaborators, as described by the module's
imports and docstrings. -/

deriving instance DecidableEq for Except

/-- Module constant `VIDEOFILES` of core.py. -/
def VIDEOFILES : List String := [".avi", ".mkv", ".mp4", ".ts", ".m2ts", ".mov"]

/-- The `EpisodeData` named tuple of core.py. -/
structure EpisodeData where
  showname : String
  season : String
  episode : String
  filename : String
deriving DecidableEq

/-- One subtitle entry supplied by the provider (`subs_list` items in
`display_subs`): language, version description, hearing-impaired flag and
download link. -/
structure SubItem where
  language : String
  version : String
  hi : Bool
  link : String
deriving DecidableEq

/-- A single matched episode: its subtitles and its episode page URL
(the fields of the non-list provider result read by `search_subs`). -/
structure EpisodeInfo where
  subtitles : List SubItem
  episode_url : String
deriving DecidableEq

/-- One candidate episode of a multi-match provider result: title and link
(the fields read by `search_subs`). -/
structure Candidate where
  title : String
  link : String
deriving DecidableEq

/-- A provider search result: either a single matched episode or a Python
list of candidate episodes (`isinstance(results, list)`). -/
inductive SearchResult where
  | single (e : EpisodeInfo)
  | multiple (items : List Candidate)
deriving DecidableEq

/-- Outcome of `parser.search_episode`: normal return or one of the
exceptions the provider client can raise (the design document lists
connection failure, no-match and daily-limit for each provider call). -/
inductive SearchOutcome where
  | connectionFailure
  | noSubsFound
  | dailyLimit
  | ok (r : SearchResult)
deriving DecidableEq

/-- Outcome of `parser.get_episode`; fetching one episode page yields the
single-episode form of result. -/
inductive GetOutcome where
  | connectionFailure
  | noSubsFound
  | dailyLimit
  | ok (e : EpisodeInfo)
deriving DecidableEq

/-- Outcome of `parser.download_subs`: per the design document each provider
operation can signal connection failure, no-match or daily-limit; core.py's
download flow catches only `ConnectionError` and `DailyLimitError`, so the
no-match signal (`SubsSearchError`) escapes it. -/
inductive DownloadOutcome where
  | connectionFailure
  | noSubsFound
  | dailyLimit
  | ok
deriving DecidableEq

/-- Python exceptions that can travel through core.py's control flow. -/
inductive PyExc where
  | keyError
  | indexError
  | parseError
  | subsSearchError
  | dailyLimitExceeded
deriving DecidableEq

/-- Icon argument of `dialog.notification`: the literal `'error'` or the
add-on icon constant. -/
inductive IconKind where
  | errorIcon
  | addonIcon
deriving DecidableEq

/-- The fields of a Kodi `ListItem` that core.py sets. -/
structure ListItem where
  label : String
  label2 : String
  thumbnail : String
  hearingImp : Bool
  sync : Bool
deriving DecidableEq

/-- Host-visible actions of core.py, recorded in order. -/
inductive Effect where
  | notify (heading msg : Nat) (icon : IconKind) (time : Option Nat)
      (sound : Option Bool)
  | addDirectoryItem (url : String) (item : ListItem)
  | selectDialog (heading : Nat) (options : List String)
  | providerSearch (query : String) (langs : List String)
  | providerGetEpisode (link : String) (langs : List String)
  | providerDownload (link referrer destination : String)
  | fsRemoveTree
  | fsMkdirs
  | endOfDirectory
deriving DecidableEq

/-- The host's now-playing descriptor (`get_now_played`): file path, display
label, library show title (empty when absent) and library season/episode
integers. -/
structure NowPlayed where
  file : String
  label : String
  showtitle : String
  season : Int
  episode : Int

/-- The collaborators of core.py: add-on settings, host state, the `utils`
helpers and the provider client, plus the user's behaviour in the selection
dialog.  Theorems quantify over an `Env` unless a claim pins a field down. -/
structure Env where
  pluginUrl : String
  profileDir : String
  useFilenameSetting : String
  nowPlayed : NowPlayed
  parse_filename : String → Option (String × String × String)
  normalize_showname : String → String
  get_languages : List String → List String
  convertLanguage : String → String
  search_episode : String → List String → SearchOutcome
  get_episode : String → List String → GetOutcome
  download_outcome : DownloadOutcome
  selectChoice : List String → Int

/-- Plugin call parameters after `dict(urlparse.parse_qsl(paramstring))`. -/
abbrev Params : Type := List (String × String)

/-- Python dict lookup on an association list built by `dict(...)` from
pairs: the last binding of a key wins. -/
def lookupLast (ps : List (String × String)) (k : String) : Option String :=
  match ps with
  | [] => none
  | kv :: rest =>
    match lookupLast rest k with
    | some r => some r
    | none => if kv.1 == k then some kv.2 else none

/-- The temporary staging directory, viewed as absent (`none`) or present
with a list of contained file names. -/
abbrev Fs : Type := Option (List String)

/-! ## The functions of core.py -/

/-- `display_subs(subs_list, episode_url, filename)` (core.py lines 34-81):
one directory entry per subtitle item; `label`/`label2`/thumbnail from the
item, the hearing-impaired flag from `item.hi`, the sync flag from the
`release_re` match against the file name, and a download callback URL
built with `urlencode`. -/
def display_subs (env : Env) (subs_list : List SubItem)
    (episode_url filename : String) : List Effect :=
  subs_list.map fun item =>
    Effect.addDirectoryItem
      (env.pluginUrl ++ "?" ++
        pyUrlencode [("action", "download"), ("link", item.link),
                     ("ref", episode_url), ("filename", filename)])
      (ListItem.mk item.language item.version (env.convertLanguage item.language)
        item.hi (syncMatch filename item.version))

/-- `download_subs(link, referrer, filename)` (core.py lines 84-126):
wipe and re-create the staging directory, build the staging path by
`filename[:-3] + 'srt'`, call the provider, then notify (and on success add
the single directory entry for the staged file).  Only `ConnectionError`
and `DailyLimitError` are caught; a no-match signal (`SubsSearchError`)
from the provider download propagates to the caller. -/
def download_subs (env : Env) (link referrer filename : String) (fs : Fs) :
    Fs × List Effect × Except PyExc Unit :=
  let stagedName := pyDropLast3 filename ++ "srt"
  let subspath := pyOsJoin (pyOsJoin env.profileDir "temp") stagedName
  let effs := (if fs.isSome then [Effect.fsRemoveTree] else []) ++
    [Effect.fsMkdirs, Effect.providerDownload link referrer subspath]
  match env.download_outcome with
  | DownloadOutcome.connectionFailure =>
    (some [], effs ++ [Effect.notify 32002 32005 IconKind.errorIcon none none],
     Except.ok ())
  | DownloadOutcome.noSubsFound =>
    (some [], effs, Except.error PyExc.subsSearchError)
  | DownloadOutcome.dailyLimit =>
    (some [],
     effs ++ [Effect.notify 32002 32003 IconKind.errorIcon (some 3000) none],
     Except.ok ())
  | DownloadOutcome.ok =>
    (some [stagedName],
     effs ++ [Effect.addDirectoryItem subspath
        (ListItem.mk subspath "" "" false false),
      Effect.notify 32000 32001 IconKind.addonIcon (some 3000) (some false)],
     Except.ok ())

/-- `extract_episode_data()` (core.py lines 129-174): the two-stage
filename/label parse when the `use_filename` setting is on or there is no
library show title; otherwise library metadata with `zfill(2)` texts and,
for an unrecognised video extension, the synthesized placeholder name
(under Python 3, `'...'.format(showname.encode('utf-8'))` inserts the
`bytes` repr of the encoded show name). -/
def extract_episode_data (env : Env) : List Effect × Except PyExc EpisodeData :=
  let np := env.nowPlayed
  let filename := pyBasename (pyUnquote np.file)
  if env.useFilenameSetting = "true" ∨ np.showtitle = "" then
    match env.parse_filename filename with
    | some r => ([], Except.ok (EpisodeData.mk r.1 r.2.1 r.2.2 filename))
    | none =>
      match env.parse_filename np.label with
      | some r => ([], Except.ok (EpisodeData.mk r.1 r.2.1 r.2.2 np.label))
      | none =>
        ([Effect.notify 32002 32006 IconKind.errorIcon (some 3000) none],
         Except.error PyExc.parseError)
  else
    let showname := np.showtitle
    let season := pyZfill (pyIntStr np.season) 2
    let episode := pyZfill (pyIntStr np.episode) 2
    let filename3 :=
      if ¬ (VIDEOFILES.contains (pyLower (pySplitextExt filename))) then
        pyBytesRepr (pyUtf8 showname) ++ "." ++ season ++ "x" ++ episode ++ ".foo"
      else filename
    ([], Except.ok (EpisodeData.mk showname season episode filename3))

/-- `search_subs(params)` (core.py lines 177-230): languages, episode data
(aborting silently on `ParseError`), the query (derived for `search`, typed
for `manualsearch`), then the provider search with its error handling, the
single/multiple split, the selection dialog and the re-query for a chosen
candidate.  A `DailyLimitError` from a provider search call is not caught
here. -/
def search_subs (env : Env) (params : Params) : List Effect × Except PyExc Unit :=
  match lookupLast params "languages" with
  | none => ([], Except.error PyExc.keyError)
  | some rawLangs =>
    let languages := env.get_languages (pySplitComma (pyUnquotePlus rawLangs))
    let ex := extract_episode_data env
    match ex.2 with
    | Except.error _ => (ex.1, Except.ok ())
    | Except.ok episode_data =>
      let queryE : Except PyExc String :=
        if lookupLast params "action" = some "search" then
          Except.ok (env.normalize_showname episode_data.showname ++ " " ++
            episode_data.season ++ "x" ++ episode_data.episode)
        else
          match lookupLast params "searchstring" with
          | some s => Except.ok s
          | none => Except.error PyExc.keyError
      match queryE with
      | Except.error e => (ex.1, Except.error e)
      | Except.ok query =>
        if query = "" then (ex.1, Except.ok ())
        else
          let effs := ex.1 ++ [Effect.providerSearch query languages]
          match env.search_episode query languages with
          | SearchOutcome.connectionFailure =>
            (effs ++ [Effect.notify 32002 32005 IconKind.errorIcon none none],
             Except.ok ())
          | SearchOutcome.noSubsFound => (effs, Except.ok ())
          | SearchOutcome.dailyLimit => (effs, Except.error PyExc.dailyLimitExceeded)
          | SearchOutcome.ok (SearchResult.single e) =>
            (effs ++ display_subs env e.subtitles e.episode_url
              episode_data.filename, Except.ok ())
          | SearchOutcome.ok (SearchResult.multiple items) =>
            let titles := items.map Candidate.title
            let effs2 := effs ++ [Effect.selectDialog 32008 titles]
            let i := env.selectChoice titles
            if 0 ≤ i then
              match items.get? i.toNat with
              | none => (effs2, Except.error PyExc.indexError)
              | some chosen =>
                let effs3 := effs2 ++
                  [Effect.providerGetEpisode chosen.link languages]
                match env.get_episode chosen.link languages with
                | GetOutcome.connectionFailure =>
                  (effs3 ++ [Effect.notify 32002 32005 IconKind.errorIcon none none],
                   Except.ok ())
                | GetOutcome.noSubsFound => (effs3, Except.ok ())
                | GetOutcome.dailyLimit =>
                  (effs3, Except.error PyExc.dailyLimitExceeded)
                | GetOutcome.ok e2 =>
                  (effs3 ++ display_subs env e2.subtitles e2.episode_url
                    episode_data.filename, Except.ok ())
            else (effs2, Except.ok ())

/-- `router(paramstring)` (core.py lines 233-250), taking the already parsed
parameter dict: dispatch on `action`, then `xbmcplugin.endOfDirectory` —
which is reached only when the dispatched flow did not raise. -/
def router (env : Env) (params : Params) (fs : Fs) :
    Fs × List Effect × Except PyExc Unit :=
  match lookupLast params "action" with
  | none => (fs, [], Except.error PyExc.keyError)
  | some action =>
    if action = "search" ∨ action = "manualsearch" then
      let r := search_subs env params
      match r.2 with
      | Except.ok _ => (fs, r.1 ++ [Effect.endOfDirectory], Except.ok ())
      | Except.error e => (fs, r.1, Except.error e)
    else if action = "download" then
      match lookupLast params "link", lookupLast params "ref",
          lookupLast params "filename" with
      | some link, some ref, some fname =>
        let d := download_subs env link ref (pyUnquotePlus fname) fs
        match d.2.2 with
        | Except.ok _ => (d.1, d.2.1 ++ [Effect.endOfDirectory], Except.ok ())
        | Except.error e => (d.1, d.2.1, Except.error e)
      | _, _, _ => (fs, [], Except.error PyExc.keyError)
    else (fs, [Effect.endOfDirectory], Except.ok ())

/-! ## Observations on effect lists -/

/-- Is this effect the end-of-listing signal? -/
def isEndSignal : Effect → Bool
  | Effect.endOfDirectory => true
  | _ => false

/-- Is this effect a directory entry? -/
def isDirItem : Effect → Bool
  | Effect.addDirectoryItem _ _ => true
  | _ => false

/-- Is this effect the selection dialog? -/
def isSelect : Effect → Bool
  | Effect.selectDialog _ _ => true
  | _ => false

/-- Is this effect a notification? -/
def isNotify : Effect → Bool
  | Effect.notify _ _ _ _ _ => true
  | _ => false

/-- Is this effect any call into the subtitle provider? -/
def isProviderCall : Effect → Bool
  | Effect.providerSearch _ _ => true
  | Effect.providerGetEpisode _ _ => true
  | Effect.providerDownload _ _ _ => true
  | _ => false

/-- Is this effect the provider episode re-query? -/
def isProviderGet : Effect → Bool
  | Effect.providerGetEpisode _ _ => true
  | _ => false

/-- Number of end-of-listing signals in an effect list. -/
def countEnd (l : List Effect) : Nat := (l.filter isEndSignal).length

/-- Number of directory entries in an effect list. -/
def countItems (l : List Effect) : Nat := (l.filter isDirItem).length

/-- Number of notifications in an effect list. -/
def countNotify (l : List Effect) : Nat := (l.filter isNotify).length

/-- Display duration of a notification effect: its explicit `time` argument,
or Kodi's documented `Dialog.notification` default of 5000 ms when the call
passes none. -/
def notifyTime : Effect → Nat
  | Effect.notify _ _ _ t _ => t.getD 5000
  | _ => 0

/-- The release tag as claim C2's sentence words it: the text between the
last `-` of the filename and the first `.` or `[` after it (`none` when the
filename has no `-` at all). -/
def claimReleaseTag (s : String) : Option String :=
  match lastIdxOf '-' s.data with
  | none => none
  | some i => some ⟨(s.data.drop (i + 1)).takeWhile
      (fun c => c != '.' && c != '[')⟩

/-- The sync rule as claim C2 words it: the claim's release tag is non-empty
and appears case-insensitively in the version description. -/
def claimSync (filename version : String) : Bool :=
  match claimReleaseTag filename with
  | some t => !t.isEmpty &&
      listInfix (pyLowerChars t.data) (pyLowerChars version.data)
  | none => false

/-- No newline among these characters (a regex `.` cannot match them). -/
def noNl (cs : List Char) : Prop := ∀ c ∈ cs, c ≠ '\n'

/-- Declarative form of the bracket part `\[.*?\]\.` of `release_re`:
some `]` is immediately followed by `.`, with no newline before that `]`. -/
def BracketClose (r : List Char) : Prop :=
  ∃ j, r[j]? = some ']' ∧ r[j + 1]? = some '.' ∧ noNl (r.take j)

/-- Position `k` of `t` can end the captured group: the `k` captured
characters contain no newline, and at `k` stands either a `.` or a `[`
whose bracket group closes with `].`. -/
def GroupStop (t : List Char) (k : Nat) : Prop :=
  noNl (t.take k) ∧
    (t[k]? = some '.' ∨
      (t[k]? = some '[' ∧ BracketClose (t.drop (k + 1))))

/-- What `release_re.search` captures, characterised without reference to
the matching recursion: the capture starts after the FIRST `-` from which
any group-ending position is reachable, and runs to the NEAREST group-ending
position after that dash (so it may be empty, and may itself contain further
`-` characters). -/
def CodeTagSpec (s g : List Char) : Prop :=
  ∃ i k, s[i]? = some '-' ∧
    (∀ i' < i, ¬ (s[i']? = some '-' ∧ ∃ k', GroupStop (s.drop (i' + 1)) k')) ∧
    GroupStop (s.drop (i + 1)) k ∧
    (∀ k' < k, ¬ GroupStop (s.drop (i + 1)) k') ∧
    g = (s.drop (i + 1)).take k

/-- A concrete environment for evaluating the model at specific inputs:
library metadata `Show` 3x7, a played file with the unrecognised extension
`.flv`, the `use_filename` setting off, a trivially succeeding provider. -/
def envBase : Env :=
  Env.mk "plugin://s" "prof" "false"
    (NowPlayed.mk "/a/Show.3x7.flv" "lbl" "Show" 3 7)
    (fun _ => none) id id id (fun _ _ => SearchOutcome.noSubsFound)
    (fun _ _ => GetOutcome.noSubsFound) DownloadOutcome.ok (fun _ => -1)

/-- `envBase` with the provider download raising `DailyLimitError`. -/
def envDaily : Env :=
  Env.mk "plugin://s" "prof" "false"
    (NowPlayed.mk "/a/Show.3x7.flv" "lbl" "Show" 3 7)
    (fun _ => none) id id id (fun _ _ => SearchOutcome.noSubsFound)
    (fun _ _ => GetOutcome.noSubsFound) DownloadOutcome.dailyLimit (fun _ => -1)

/-- `envBase` with the provider download raising `ConnectionError`. -/
def envConn : Env :=
  Env.mk "plugin://s" "prof" "false"
    (NowPlayed.mk "/a/Show.3x7.flv" "lbl" "Show" 3 7)
    (fun _ => none) id id id (fun _ _ => SearchOutcome.noSubsFound)
    (fun _ _ => GetOutcome.noSubsFound) DownloadOutcome.connectionFailure
    (fun _ => -1)

/-- An environment whose provider raises `DailyLimitError` already during
the episode search. -/
def envSearchLimit : Env :=
  Env.mk "plugin://s" "prof" "true"
    (NowPlayed.mk "/a/Show.1x2.mkv" "lbl" "" 1 2)
    (fun _ => some ("Show", "01", "02")) id id id
    (fun _ _ => SearchOutcome.dailyLimit)
    (fun _ _ => GetOutcome.noSubsFound) DownloadOutcome.ok (fun _ => -1)

/-- An environment whose provider download signals no-match
(`SubsSearchError`). -/
def envDownloadNoMatch : Env :=
  Env.mk "plugin://s" "prof" "false"
    (NowPlayed.mk "/a/Show.3x7.flv" "lbl" "Show" 3 7)
    (fun _ => none) id id id (fun _ _ => SearchOutcome.noSubsFound)
    (fun _ _ => GetOutcome.noSubsFound) DownloadOutcome.noSubsFound
    (fun _ => -1)

/-- The effects of `extract_episode_data` are either nothing or the single
identity-resolution error notification. -/
theorem extract_effects (env : Env) :
    (extract_episode_data env).1 = [] ∨
      (extract_episode_data env).1 =
        [Effect.notify 32002 32006 IconKind.errorIcon (some 3000) none] := by
  simp only [extract_episode_data]
  split
  · split
    · exact Or.inl rfl
    · split
      · exact Or.inl rfl
      · exact Or.inr rfl
  · exact Or.inl rfl

/-! ## C8 -/

/-- C8: every download request first removes the staging directory when it
exists and recreates it, both before the provider's byte retrieval; the
resulting directory state is independent of the prior state, so a second
consecutive identical download request leaves exactly the state of the
first, and on success that state holds the single staged file. -/
theorem c8_download_idempotent (env : Env) (link ref filename : String) (fs : Fs) :
    (∃ rest, (download_subs env link ref filename fs).2.1 =
        (if fs.isSome then [Effect.fsRemoveTree] else []) ++
          [Effect.fsMkdirs, Effect.providerDownload link ref
            (pyOsJoin (pyOsJoin env.profileDir "temp")
              (pyDropLast3 filename ++ "srt"))] ++ rest) ∧
    (download_subs env link ref filename
        (download_subs env link ref filename fs).1).1 =
      (download_subs env link ref filename fs).1 ∧
    (env.download_outcome = DownloadOutcome.ok →
      (download_subs env link ref filename fs).1 =
        some [pyDropLast3 filename ++ "srt"]) := by
  unfold download_subs
  cases env.download_outcome <;> simp

/-- Witness for C8 at a concrete environment and download request. -/
theorem c8_download_idempotent_witness :
    (download_subs
        (Env.mk "plugin://s" "prof" "false" (NowPlayed.mk "/a/f.mkv" "l" "S" 1 2)
          (fun _ => none) id id id (fun _ _ => SearchOutcome.noSubsFound)
          (fun _ _ => GetOutcome.noSubsFound) DownloadOutcome.ok (fun _ => -1))
        "lnk" "ref" "video.mkv" none).1 = some ["video.srt"] := by
  have h := c8_download_idempotent
    (Env.mk "plugin://s" "prof" "false" (NowPlayed.mk "/a/f.mkv" "l" "S" 1 2)
      (fun _ => none) id id id (fun _ _ => SearchOutcome.noSubsFound)
      (fun _ _ => GetOutcome.noSubsFound) DownloadOutcome.ok (fun _ => -1))
    "lnk" "ref" "video.mkv" none
  have h3 := h.2.2 rfl
  rw [h3]
  decide

/-! ## C9 -/

/-- C9: when the resulting query string is empty — a `manualsearch` whose
typed search string is empty — the search flow neither calls the provider
nor produces any display entry (this holds for every environment, in
particular whatever the identity-resolution stage does). -/
theorem c9_empty_query_skips_provider (env : Env) (params : Params)
    (hAct : lookupLast params "action" = some "manualsearch")
    (hStr : lookupLast params "searchstring" = some "") :
    (search_subs env params).1.filter isProviderCall = [] ∧
      (search_subs env params).1.filter isDirItem = [] := by
  have hex := extract_effects env
  unfold search_subs
  cases hL : lookupLast params "languages" with
  | none => simp
  | some rawLangs =>
    cases hE : (extract_episode_data env).2 with
    | error e =>
      rcases hex with h | h <;>
        simp [hE, h, isProviderCall, isDirItem]
    | ok ed =>
      rcases hex with h | h <;>
        simp [hE, h, hAct, hStr, isProviderCall, isDirItem]

/-- Witness for C9 at a concrete environment and parameter dict. -/
theorem c9_empty_query_skips_provider_witness :
    (search_subs
        (Env.mk "plugin://s" "prof" "false" (NowPlayed.mk "/a/f.mkv" "l" "S" 1 2)
          (fun _ => none) id id id (fun _ _ => SearchOutcome.noSubsFound)
          (fun _ _ => GetOutcome.noSubsFound) DownloadOutcome.ok (fun _ => -1))
        [("action", "manualsearch"), ("languages", "en"),
         ("searchstring", "")]).1.filter isProviderCall = [] :=
  (c9_empty_query_skips_provider
    (Env.mk "plugin://s" "prof" "false" (NowPlayed.mk "/a/f.mkv" "l" "S" 1 2)
      (fun _ => none) id id id (fun _ _ => SearchOutcome.noSubsFound)
      (fun _ _ => GetOutcome.noSubsFound) DownloadOutcome.ok (fun _ => -1))
    [("action", "manualsearch"), ("languages", "en"), ("searchstring", "")]
    (by decide) (by decide)).1

/-! ## C10 -/

/-- C10: when the first-stage parse of the base file name fails and the
second-stage parse of the host's display label succeeds, the returned
`EpisodeData.filename` is the display label itself, not the played file's
basename. -/
theorem c10_label_becomes_filename (env : Env)
    (hMode : env.useFilenameSetting = "true" ∨ env.nowPlayed.showtitle = "")
    (hFail : env.parse_filename (pyBasename (pyUnquote env.nowPlayed.file)) = none)
    (sh se ep : String)
    (hOk : env.parse_filename env.nowPlayed.label = some (sh, se, ep)) :
    extract_episode_data env =
      ([], Except.ok (EpisodeData.mk sh se ep env.nowPlayed.label)) := by
  unfold extract_episode_data
  rw [if_pos hMode, hFail, hOk]

/-- Witness for C10 at a concrete environment whose filename parse fails and
whose label parse succeeds. -/
theorem c10_label_becomes_filename_witness :
    extract_episode_data
        (Env.mk "plugin://s" "prof" "true" (NowPlayed.mk "/a/file.mkv" "lbl" "" 1 2)
          (fun s => if s = "lbl" then some ("Show", "01", "02") else none)
          id id id (fun _ _ => SearchOutcome.noSubsFound)
          (fun _ _ => GetOutcome.noSubsFound) DownloadOutcome.ok (fun _ => -1)) =
      ([], Except.ok (EpisodeData.mk "Show" "01" "02" "lbl")) :=
  c10_label_becomes_filename
    (Env.mk "plugin://s" "prof" "true" (NowPlayed.mk "/a/file.mkv" "lbl" "" 1 2)
      (fun s => if s = "lbl" then some ("Show", "01", "02") else none)
      id id id (fun _ _ => SearchOutcome.noSubsFound)
      (fun _ _ => GetOutcome.noSubsFound) DownloadOutcome.ok (fun _ => -1))
    (Or.inl rfl) (by decide) "Show" "01" "02" (by decide)

/-! ## C3 -/

/-- C3: with library metadata `Show` 3x7 and a file whose extension `.flv`
is not a recognised video extension, the resolved `EpisodeData` carries the
zero-padded season and episode texts, but the synthesized placeholder
filename is the Python 3 `format` of the UTF-8-encoded show name — the
`bytes` repr, a `b` and a quote around the text — followed by
`.03x07.foo`, and therefore differs from the documented
`<showname>.<season>x<episode>.foo` form. -/
theorem c3_placeholder_filename_bug :
    (extract_episode_data envBase).2 =
      Except.ok (EpisodeData.mk "Show" "03" "07"
        (pyBytesRepr (pyUtf8 "Show") ++ ".03x07.foo")) ∧
    pyBytesRepr (pyUtf8 "Show") ++ ".03x07.foo" ≠ "Show.03x07.foo" ∧
    (pyBytesRepr (pyUtf8 "Show")).length = 7 ∧
    (pyBytesRepr (pyUtf8 "Show")).data.head? = some 'b' := by decide

/-! ## C4 -/

/-- Replacing the last three characters with `srt` coincides with extension
replacement exactly when three characters follow the final dot. -/
theorem dropLast3_three_char_tail (stem tail : String) (h : tail.length = 3) :
    pyDropLast3 (stem ++ "." ++ tail) ++ "srt" = stem ++ ".srt" := by
  have hdata : (stem ++ "." ++ tail).data = stem.data ++ ('.' :: tail.data) := by
    simp [String.data_append]
  have hlen : tail.data.length = 3 := h
  apply congrArg String.mk ∘ id
  show (pyDropLast3 (stem ++ "." ++ tail)).data ++ "srt".data =
    (stem ++ ".srt").data
  have : pyDropLast3 (stem ++ "." ++ tail) =
      ⟨(stem.data ++ ('.' :: tail.data)).take
        ((stem.data ++ ('.' :: tail.data)).length - 3)⟩ := by
    simp only [pyDropLast3, hdata]
  rw [this]
  simp [String.data_append, List.take_append_eq_append_take, hlen,
    Nat.add_sub_cancel]

/-- C4 counterexample: for the target filename `video.ts` — a recognised
video extension of two characters — a successful download stages the file
`videosrt`, not the extension-replaced `video.srt`. -/
theorem c4_counterexample :
    (download_subs envBase "lnk" "ref" "video.ts" none).1 = some ["videosrt"] ∧
      "videosrt" ≠ "video.srt" := by decide

/-- C4 (amended): the staging path replaces the last three characters of the
target filename with `srt`, and after a successful download the staging
directory contains exactly that one file; this coincides with replacing the
extension by `srt` exactly when three characters follow the final dot
(extensions such as `.avi`/`.mkv`/`.mp4`/`.mov`, but not `.ts` or
`.m2ts`). -/
theorem c4_staged_name (env : Env) (link ref filename : String) (fs : Fs)
    (hOk : env.download_outcome = DownloadOutcome.ok) :
    (download_subs env link ref filename fs).1 =
      some [pyDropLast3 filename ++ "srt"] ∧
    (∀ stem tail : String, tail.length = 3 →
      pyDropLast3 (stem ++ "." ++ tail) ++ "srt" = stem ++ ".srt") := by
  constructor
  · simp [download_subs, hOk]
  · intro stem tail h
    exact dropLast3_three_char_tail stem tail h

/-- Witness for C4's amended statement at a concrete download request. -/
theorem c4_staged_name_witness :
    (download_subs envBase "lnk" "ref" "video.mkv" none).1 =
      some [pyDropLast3 "video.mkv" ++ "srt"] :=
  (c4_staged_name envBase "lnk" "ref" "video.mkv" none rfl).1

/-! ## C5 -/

/-- C5 counterexample: on a daily-limit download error the shown
notification carries the distinct message 32003 with an explicit 3000 ms
display time, while the connectivity notification passes no time and hence
uses the host's 5000 ms default — so the daily-limit notification's display
duration is not longer. -/
theorem c5_counterexample :
    (download_subs envDaily "l" "r" "f.mkv" none).2.1.filter isNotify =
      [Effect.notify 32002 32003 IconKind.errorIcon (some 3000) none] ∧
    (download_subs envConn "l" "r" "f.mkv" none).2.1.filter isNotify =
      [Effect.notify 32002 32005 IconKind.errorIcon none none] ∧
    ¬ (notifyTime (Effect.notify 32002 32003 IconKind.errorIcon (some 3000) none) >
        notifyTime (Effect.notify 32002 32005 IconKind.errorIcon none none)) := by
  decide

/-- C5 (amended): for every download request — on a connection failure,
exactly one notification (message 32005, no explicit duration) and no
directory entry, nothing staged; on a daily-limit error, exactly one
notification with the distinct message 32003 and an explicit 3000 ms
duration (shorter than the 5000 ms default duration of the connectivity
notification) and no directory entry, nothing staged; on success, exactly
one directory entry pointing at the staged file together with the success
notification. -/
theorem c5_download_error_handling (env : Env) (link ref filename : String)
    (fs : Fs) :
    (env.download_outcome = DownloadOutcome.connectionFailure →
      (download_subs env link ref filename fs).2.1.filter isNotify =
        [Effect.notify 32002 32005 IconKind.errorIcon none none] ∧
      (download_subs env link ref filename fs).2.1.filter isDirItem = [] ∧
      (download_subs env link ref filename fs).1 = some []) ∧
    (env.download_outcome = DownloadOutcome.dailyLimit →
      (download_subs env link ref filename fs).2.1.filter isNotify =
        [Effect.notify 32002 32003 IconKind.errorIcon (some 3000) none] ∧
      (download_subs env link ref filename fs).2.1.filter isDirItem = [] ∧
      (download_subs env link ref filename fs).1 = some [] ∧
      notifyTime (Effect.notify 32002 32003 IconKind.errorIcon (some 3000) none) <
        notifyTime (Effect.notify 32002 32005 IconKind.errorIcon none none)) ∧
    (env.download_outcome = DownloadOutcome.ok →
      (download_subs env link ref filename fs).2.1.filter isDirItem =
        [Effect.addDirectoryItem
          (pyOsJoin (pyOsJoin env.profileDir "temp")
            (pyDropLast3 filename ++ "srt"))
          (ListItem.mk
            (pyOsJoin (pyOsJoin env.profileDir "temp")
              (pyDropLast3 filename ++ "srt")) "" "" false false)] ∧
      (download_subs env link ref filename fs).2.1.filter isNotify =
        [Effect.notify 32000 32001 IconKind.addonIcon (some 3000) (some false)] ∧
      (download_subs env link ref filename fs).1 =
        some [pyDropLast3 filename ++ "srt"]) := by
  refine ⟨fun h => ?_, fun h => ?_, fun h => ?_⟩ <;>
    cases fs <;>
      simp [download_subs, h, isNotify, isDirItem, notifyTime]

/-- Witness for C5's amended statement: the daily-limit case at a concrete
download request. -/
theorem c5_download_error_handling_witness :
    (download_subs envDaily "l" "r" "f.mkv" none).2.1.filter isNotify =
      [Effect.notify 32002 32003 IconKind.errorIcon (some 3000) none] :=
  ((c5_download_error_handling envDaily "l" "r" "f.mkv" none).2.1 rfl).1

/-! ## C6 -/

/-- C6: in filename-preference mode (`use_filename` on, or no library show
title), episode identity resolution returns the parse of the base filename
when that parse succeeds; otherwise the parse of the host's display label
when that succeeds; otherwise it shows the identity-resolution error
notification and raises `ParseError`, and the search flow then terminates
with that notification only — no provider call and no display entry. -/
theorem c6_identity_resolution (env : Env) (params : Params)
    (hMode : env.useFilenameSetting = "true" ∨ env.nowPlayed.showtitle = "") :
    (∀ sh se ep,
      env.parse_filename (pyBasename (pyUnquote env.nowPlayed.file)) =
          some (sh, se, ep) →
      extract_episode_data env = ([], Except.ok
        (EpisodeData.mk sh se ep (pyBasename (pyUnquote env.nowPlayed.file))))) ∧
    (∀ sh se ep,
      env.parse_filename (pyBasename (pyUnquote env.nowPlayed.file)) = none →
      env.parse_filename env.nowPlayed.label = some (sh, se, ep) →
      extract_episode_data env = ([], Except.ok
        (EpisodeData.mk sh se ep env.nowPlayed.label))) ∧
    (env.parse_filename (pyBasename (pyUnquote env.nowPlayed.file)) = none →
      env.parse_filename env.nowPlayed.label = none →
      extract_episode_data env =
        ([Effect.notify 32002 32006 IconKind.errorIcon (some 3000) none],
         Except.error PyExc.parseError) ∧
      (search_subs env params).1.filter isProviderCall = [] ∧
      (search_subs env params).1.filter isDirItem = []) := by
  refine ⟨?_, ?_, ?_⟩
  · intro sh se ep hOk
    unfold extract_episode_data
    rw [if_pos hMode, hOk]
  · intro sh se ep hFail hOk
    unfold extract_episode_data
    rw [if_pos hMode, hFail, hOk]
  · intro h1 h2
    have hx : extract_episode_data env =
        ([Effect.notify 32002 32006 IconKind.errorIcon (some 3000) none],
         Except.error PyExc.parseError) := by
      unfold extract_episode_data
      rw [if_pos hMode, h1, h2]
    refine ⟨hx, ?_, ?_⟩ <;>
    · unfold search_subs
      cases hL : lookupLast params "languages" <;>
        simp [hx, isProviderCall, isDirItem]

/-- Witness for C6: both parses fail in a concrete environment, so the
search flow emits the error notification and nothing else. -/
theorem c6_identity_resolution_witness :
    extract_episode_data
        (Env.mk "plugin://s" "prof" "true"
          (NowPlayed.mk "/a/file.mkv" "lbl" "" 1 2) (fun _ => none) id id id
          (fun _ _ => SearchOutcome.noSubsFound)
          (fun _ _ => GetOutcome.noSubsFound) DownloadOutcome.ok
          (fun _ => -1)) =
      ([Effect.notify 32002 32006 IconKind.errorIcon (some 3000) none],
       Except.error PyExc.parseError) ∧
    (search_subs
        (Env.mk "plugin://s" "prof" "true"
          (NowPlayed.mk "/a/file.mkv" "lbl" "" 1 2) (fun _ => none) id id id
          (fun _ _ => SearchOutcome.noSubsFound)
          (fun _ _ => GetOutcome.noSubsFound) DownloadOutcome.ok
          (fun _ => -1))
        [("action", "search"), ("languages", "en")]).1.filter
      isProviderCall = [] := by
  have h := (c6_identity_resolution
    (Env.mk "plugin://s" "prof" "true"
      (NowPlayed.mk "/a/file.mkv" "lbl" "" 1 2) (fun _ => none) id id id
      (fun _ _ => SearchOutcome.noSubsFound)
      (fun _ _ => GetOutcome.noSubsFound) DownloadOutcome.ok (fun _ => -1))
    [("action", "search"), ("languages", "en")] (Or.inl rfl)).2.2 rfl rfl
  exact ⟨h.1, h.2.1⟩

/-! ## C7 -/

/-- The search query built for the `search` action is never the empty
string (it always contains a space and an `x`). -/
theorem searchQuery_ne_empty (a b c : String) : a ++ " " ++ b ++ "x" ++ c ≠ "" := by
  intro h
  have hlen : (a ++ " " ++ b ++ "x" ++ c).data.length = 0 := by rw [h]; rfl
  simp [String.data_append] at hlen

/-- `display_subs` shows no selection dialog. -/
theorem display_subs_filter_select (env : Env) (s : List SubItem) (u f : String) :
    (display_subs env s u f).filter isSelect = [] := by
  simp [display_subs, isSelect]

/-- C7: once identity is resolved and the `search` query built — a
single-episode provider response is presented directly, with no selection
dialog anywhere in the effects; a multi-candidate response shows the
selection dialog immediately after the provider search call and before
anything else; and a cancelled selection (negative index) terminates
silently: the effects stop at the dialog, with no directory entry and no
episode re-query, and the flow returns normally. -/
theorem c7_single_vs_multiple (env : Env) (params : Params) (ed : EpisodeData)
    (hExtract : extract_episode_data env = ([], Except.ok ed))
    (hAct : lookupLast params "action" = some "search")
    (rawLangs : String)
    (hLang : lookupLast params "languages" = some rawLangs) :
    (∀ e, env.search_episode
        (env.normalize_showname ed.showname ++ " " ++ ed.season ++ "x" ++
          ed.episode)
        (env.get_languages (pySplitComma (pyUnquotePlus rawLangs))) =
        SearchOutcome.ok (SearchResult.single e) →
      search_subs env params =
        (Effect.providerSearch
            (env.normalize_showname ed.showname ++ " " ++ ed.season ++ "x" ++
              ed.episode)
            (env.get_languages (pySplitComma (pyUnquotePlus rawLangs))) ::
          display_subs env e.subtitles e.episode_url ed.filename,
         Except.ok ()) ∧
      (search_subs env params).1.filter isSelect = []) ∧
    (∀ items, env.search_episode
        (env.normalize_showname ed.showname ++ " " ++ ed.season ++ "x" ++
          ed.episode)
        (env.get_languages (pySplitComma (pyUnquotePlus rawLangs))) =
        SearchOutcome.ok (SearchResult.multiple items) →
      (∃ rest, (search_subs env params).1 =
        Effect.providerSearch
            (env.normalize_showname ed.showname ++ " " ++ ed.season ++ "x" ++
              ed.episode)
            (env.get_languages (pySplitComma (pyUnquotePlus rawLangs))) ::
          Effect.selectDialog 32008 (items.map Candidate.title) :: rest) ∧
      (env.selectChoice (items.map Candidate.title) < 0 →
        search_subs env params =
          ([Effect.providerSearch
              (env.normalize_showname ed.showname ++ " " ++ ed.season ++ "x" ++
                ed.episode)
              (env.get_languages (pySplitComma (pyUnquotePlus rawLangs))),
            Effect.selectDialog 32008 (items.map Candidate.title)],
           Except.ok ()))) := by
  have hq := searchQuery_ne_empty (env.normalize_showname ed.showname)
    ed.season ed.episode
  constructor
  · intro e hs
    constructor
    · unfold search_subs
      rw [hLang]
      simp [hExtract, hAct, hq, hs]
    · unfold search_subs
      rw [hLang]
      simp [hExtract, hAct, hq, hs, isSelect, display_subs_filter_select]
  · intro items hs
    constructor
    · unfold search_subs
      rw [hLang]
      simp only [hExtract, hAct]
      simp [hq, hs]
      split
      · split
        · exact ⟨_, rfl⟩
        · split <;> exact ⟨_, rfl⟩
      · exact ⟨[], rfl⟩
    · intro hNeg
      unfold search_subs
      rw [hLang]
      simp [hExtract, hAct, hq, hs, Int.not_le.mpr hNeg]

/-- Witness for C7: a concrete multi-candidate response whose selection the
user cancels — the flow stops at the selection dialog. -/
theorem c7_single_vs_multiple_witness :
    search_subs
        (Env.mk "plugin://s" "prof" "true"
          (NowPlayed.mk "/a/Show.1x2.mkv" "lbl" "" 1 2)
          (fun _ => some ("Show", "01", "02")) id id id
          (fun _ _ => SearchOutcome.ok (SearchResult.multiple
            [Candidate.mk "T1" "L1", Candidate.mk "T2" "L2"]))
          (fun _ _ => GetOutcome.noSubsFound) DownloadOutcome.ok
          (fun _ => -1))
        [("action", "search"), ("languages", "en")] =
      ([Effect.providerSearch "Show 01x02" ["en"],
        Effect.selectDialog 32008 ["T1", "T2"]], Except.ok ()) :=
  (((c7_single_vs_multiple
      (Env.mk "plugin://s" "prof" "true"
        (NowPlayed.mk "/a/Show.1x2.mkv" "lbl" "" 1 2)
        (fun _ => some ("Show", "01", "02")) id id id
        (fun _ _ => SearchOutcome.ok (SearchResult.multiple
          [Candidate.mk "T1" "L1", Candidate.mk "T2" "L2"]))
        (fun _ _ => GetOutcome.noSubsFound) DownloadOutcome.ok (fun _ => -1))
      [("action", "search"), ("languages", "en")]
      (EpisodeData.mk "Show" "01" "02" "Show.1x2.mkv")
      (by decide) (by decide) "en" (by decide)).2
    [Candidate.mk "T1" "L1", Candidate.mk "T2" "L2"] rfl).2 (by decide))


/-! ## C2 -/

/-- Unfolding `BracketClose` over a leading character. -/
theorem bracketClose_cons (c : Char) (rest : List Char) :
    BracketClose (c :: rest) ↔
      ((c = ']' ∧ rest.head? = some '.') ∨ (c ≠ '\n' ∧ BracketClose rest)) := by
  rw [List.head?_eq_getElem?]
  constructor
  · rintro ⟨j, h1, h2, h3⟩
    cases j with
    | zero =>
      left
      simp only [List.getElem?_cons_zero, Option.some.injEq] at h1
      simp only [List.getElem?_cons_succ] at h2
      exact ⟨h1, h2⟩
    | succ j =>
      right
      simp only [List.getElem?_cons_succ] at h1 h2
      simp only [List.take_succ_cons, noNl, List.mem_cons, forall_eq_or_imp] at h3
      exact ⟨h3.1, j, h1, h2, h3.2⟩
  · rintro (⟨hc, hd⟩ | ⟨hc, j, h1, h2, h3⟩)
    · exact ⟨0, by simp [hc], by simpa using hd, by simp [noNl]⟩
    · refine ⟨j + 1, by simpa using h1, by simpa using h2, ?_⟩
      simp only [List.take_succ_cons, noNl, List.mem_cons, forall_eq_or_imp]
      exact ⟨hc, h3⟩

/-- The recursive bracket scan computes exactly `BracketClose`. -/
theorem scanBracket_iff (r : List Char) : scanBracket r = true ↔ BracketClose r := by
  induction r with
  | nil =>
    refine ⟨fun h => absurd h (by simp [scanBracket]), fun h => ?_⟩
    obtain ⟨j, h1, _, _⟩ := h
    simp at h1
  | cons c rest ih =>
    rw [bracketClose_cons]
    simp only [scanBracket, Bool.or_eq_true, Bool.and_eq_true, beq_iff_eq,
      bne_iff_ne, ih]

/-- `GroupStop` at position zero. -/
theorem groupStop_zero (c : Char) (rest : List Char) :
    GroupStop (c :: rest) 0 ↔ (c = '.' ∨ (c = '[' ∧ BracketClose rest)) := by
  unfold GroupStop
  simp [noNl]

/-- `GroupStop` shifted across a leading character. -/
theorem groupStop_succ (c : Char) (rest : List Char) (k : Nat) :
    GroupStop (c :: rest) (k + 1) ↔ (c ≠ '\n' ∧ GroupStop rest k) := by
  unfold GroupStop
  simp only [List.take_succ_cons, List.getElem?_cons_succ, List.drop_succ_cons,
    noNl, List.mem_cons, forall_eq_or_imp]
  tauto

/-- The non-greedy group match computes exactly the take at the NEAREST
group-ending position. -/
theorem groupFrom_iff (t g : List Char) :
    groupFrom t = some g ↔
      ∃ k, GroupStop t k ∧ (∀ k' < k, ¬ GroupStop t k') ∧ g = t.take k := by
  induction t generalizing g with
  | nil =>
    constructor
    · intro h
      simp [groupFrom] at h
    · rintro ⟨k, ⟨_, h⟩, _, _⟩
      simp at h
  | cons c rest ih =>
    by_cases hdot : c = '.'
    · subst hdot
      have h0 : GroupStop ('.' :: rest) 0 := by
        rw [groupStop_zero]; exact Or.inl rfl
      constructor
      · intro h
        simp only [groupFrom, beq_self_eq_true, if_true] at h
        injection h with h
        exact ⟨0, h0, fun k' hk' => absurd hk' (Nat.not_lt_zero k'),
          by rw [← h]; rfl⟩
      · rintro ⟨k, hk, hmin, hg⟩
        have hk0 : k = 0 := by
          rcases Nat.eq_zero_or_pos k with h | h
          · exact h
          · exact absurd h0 (hmin 0 h)
        subst hk0
        simp only [List.take_zero] at hg
        subst hg
        simp [groupFrom]
    · by_cases hbr : c = '[' ∧ scanBracket rest = true
      · obtain ⟨rfl, hsb⟩ := hbr
        have h0 : GroupStop ('[' :: rest) 0 := by
          rw [groupStop_zero]
          exact Or.inr ⟨rfl, (scanBracket_iff rest).mp hsb⟩
        constructor
        · intro h
          simp only [groupFrom, hsb] at h
          rw [if_neg (by simp), if_pos (by simp)] at h
          injection h with h
          exact ⟨0, h0, fun k' hk' => absurd hk' (Nat.not_lt_zero k'),
            by rw [← h]; rfl⟩
        · rintro ⟨k, hk, hmin, hg⟩
          have hk0 : k = 0 := by
            rcases Nat.eq_zero_or_pos k with h | h
            · exact h
            · exact absurd h0 (hmin 0 h)
          subst hk0
          simp only [List.take_zero] at hg
          subst hg
          simp [groupFrom, hsb]
      · have hnot0 : ¬ GroupStop (c :: rest) 0 := by
          rw [groupStop_zero]
          rintro (h | ⟨h1, h2⟩)
          · exact hdot h
          · exact hbr ⟨h1, (scanBracket_iff rest).mpr h2⟩
        have hc2 : ¬ ((c == '[' && scanBracket rest) = true) := by
          intro h
          rw [Bool.and_eq_true, beq_iff_eq] at h
          exact hbr h
        by_cases hnl : c = '\n'
        · subst hnl
          constructor
          · intro h
            simp only [groupFrom] at h
            rw [if_neg (by simp [hdot]), if_neg hc2, if_neg (by simp)] at h
            cases h
          · rintro ⟨k, hk, hmin, hg⟩
            cases k with
            | zero => exact absurd hk hnot0
            | succ k =>
              rw [groupStop_succ] at hk
              exact absurd rfl hk.1
        · have hred : groupFrom (c :: rest) = (groupFrom rest).map (c :: ·) := by
            simp only [groupFrom]
            rw [if_neg (by simp [hdot]), if_neg hc2, if_pos (by simp [hnl])]
          rw [hred]
          constructor
          · intro h
            rw [Option.map_eq_some'] at h
            obtain ⟨g', hg', hcg⟩ := h
            obtain ⟨k, hk, hmin, hgeq⟩ := (ih g').mp hg'
            refine ⟨k + 1, (groupStop_succ c rest k).mpr ⟨hnl, hk⟩, ?_, ?_⟩
            · intro k' hk'
              cases k' with
              | zero => exact hnot0
              | succ k' =>
                rw [groupStop_succ]
                rintro ⟨_, hgs⟩
                exact hmin k' (by omega) hgs
            · rw [List.take_succ_cons, ← hcg, hgeq]
          · rintro ⟨k, hk, hmin, hg⟩
            cases k with
            | zero => exact absurd hk hnot0
            | succ k =>
              rw [groupStop_succ] at hk
              have hrest : groupFrom rest = some (rest.take k) := by
                refine (ih _).mpr ⟨k, hk.2, ?_, rfl⟩
                intro k'' h'' hgs
                exact hmin (k'' + 1) (by omega)
                  ((groupStop_succ c rest k'').mpr ⟨hk.1, hgs⟩)
              rw [hrest, Option.map_some']
              rw [hg, List.take_succ_cons]

/-- The leftmost-match search: the capture comes from the FIRST `-` whose
tail admits a group match. -/
theorem releaseSearch_iff (s g : List Char) :
    releaseSearchL s = some g ↔
      ∃ i, s[i]? = some '-' ∧ groupFrom (s.drop (i + 1)) = some g ∧
        ∀ i' < i, ¬ (s[i']? = some '-' ∧ (groupFrom (s.drop (i' + 1))).isSome) := by
  induction s generalizing g with
  | nil =>
    constructor
    · intro h
      simp [releaseSearchL] at h
    · rintro ⟨i, h1, _, _⟩
      simp at h1
  | cons c rest ih =>
    by_cases hc : c = '-'
    · subst hc
      cases hgf : groupFrom rest with
      | some g0 =>
        constructor
        · intro h
          simp only [releaseSearchL, beq_self_eq_true, if_true, hgf] at h
          refine ⟨0, by simp, ?_, fun i' hi' => absurd hi' (Nat.not_lt_zero i')⟩
          simpa [hgf] using h
        · rintro ⟨i, h1, h2, h3⟩
          cases i with
          | zero =>
            simp only [Nat.zero_add, List.drop_succ_cons, List.drop_zero] at h2
            rw [hgf] at h2
            injection h2 with h2
            simp [releaseSearchL, hgf, h2]
          | succ i =>
            exact absurd ⟨by simp, by simp [hgf]⟩ (h3 0 (Nat.succ_pos i))
      | none =>
        have hred : releaseSearchL ('-' :: rest) = releaseSearchL rest := by
          simp [releaseSearchL, hgf]
        rw [hred, ih g]
        constructor
        · rintro ⟨i, h1, h2, h3⟩
          refine ⟨i + 1, by simpa using h1, by simpa using h2, ?_⟩
          intro i' hi'
          cases i' with
          | zero =>
            rintro ⟨_, hsome⟩
            simp only [Nat.zero_add, List.drop_succ_cons, List.drop_zero] at hsome
            rw [hgf] at hsome
            cases hsome
          | succ i' =>
            rintro ⟨ha, hb⟩
            exact h3 i' (by omega) ⟨by simpa using ha, by simpa using hb⟩
        · rintro ⟨i, h1, h2, h3⟩
          cases i with
          | zero =>
            simp only [Nat.zero_add, List.drop_succ_cons, List.drop_zero] at h2
            rw [hgf] at h2
            cases h2
          | succ i =>
            refine ⟨i, by simpa using h1, by simpa using h2, ?_⟩
            intro i' hi' hpair
            exact h3 (i' + 1) (by omega)
              ⟨by simpa using hpair.1, by simpa using hpair.2⟩
    · have hred : releaseSearchL (c :: rest) = releaseSearchL rest := by
        simp [releaseSearchL, hc]
      rw [hred, ih g]
      constructor
      · rintro ⟨i, h1, h2, h3⟩
        refine ⟨i + 1, by simpa using h1, by simpa using h2, ?_⟩
        intro i' hi'
        cases i' with
        | zero =>
          rintro ⟨h0, _⟩
          simp only [List.getElem?_cons_zero, Option.some.injEq] at h0
          exact hc h0
        | succ i' =>
          rintro ⟨ha, hb⟩
          exact h3 i' (by omega) ⟨by simpa using ha, by simpa using hb⟩
      · rintro ⟨i, h1, h2, h3⟩
        cases i with
        | zero =>
          simp only [List.getElem?_cons_zero, Option.some.injEq] at h1
          exact absurd h1 hc
        | succ i =>
          refine ⟨i, by simpa using h1, by simpa using h2, ?_⟩
          intro i' hi' hpair
          exact h3 (i' + 1) (by omega)
            ⟨by simpa using hpair.1, by simpa using hpair.2⟩

/-- Every non-empty set of naturals has a least element. -/
theorem exists_min_nat {p : Nat → Prop} (h : ∃ k, p k) :
    ∃ k, p k ∧ ∀ k' < k, ¬ p k' := by
  classical
  exact ⟨Nat.find h, Nat.find_spec h, fun k' hk' => Nat.find_min h hk'⟩

/-- What `release_re.search` captures is exactly `CodeTagSpec`. -/
theorem releaseSearch_eq_iff_codeTagSpec (s g : List Char) :
    releaseSearchL s = some g ↔ CodeTagSpec s g := by
  rw [releaseSearch_iff]
  unfold CodeTagSpec
  constructor
  · rintro ⟨i, h1, h2, h3⟩
    obtain ⟨k, hk, hkmin, hg⟩ := (groupFrom_iff _ _).mp h2
    refine ⟨i, k, h1, ?_, hk, hkmin, hg⟩
    intro i' hi' hpair
    obtain ⟨ha, k', hb⟩ := hpair
    apply h3 i' hi'
    refine ⟨ha, ?_⟩
    obtain ⟨k0, hk0, hk0min⟩ := exists_min_nat ⟨k', hb⟩
    rw [(groupFrom_iff _ _).mpr ⟨k0, hk0, hk0min, rfl⟩]
    rfl
  · rintro ⟨i, k, h1, h2, hk, hkmin, hg⟩
    refine ⟨i, h1, (groupFrom_iff _ _).mpr ⟨k, hk, hkmin, hg⟩, ?_⟩
    intro i' hi' hpair
    obtain ⟨ha, hsome⟩ := hpair
    apply h2 i' hi'
    refine ⟨ha, ?_⟩
    obtain ⟨g', hg'⟩ := Option.isSome_iff_exists.mp hsome
    obtain ⟨k', hk', _, _⟩ := (groupFrom_iff _ _).mp hg'
    exact ⟨k', hk'⟩

/-- The code's sync test, characterised by `CodeTagSpec`. -/
theorem syncMatch_iff_spec (fname version : String) :
    syncMatch fname version = true ↔
      ∃ g, CodeTagSpec fname.data g ∧
        listInfix (pyLowerChars g) (pyLowerChars version.data) = true := by
  unfold syncMatch
  rcases hr : releaseSearchL fname.data with _ | g0
  · simp only [hr]
    constructor
    · intro h
      cases h
    · rintro ⟨g, hspec, _⟩
      rw [← releaseSearch_eq_iff_codeTagSpec, hr] at hspec
      cases hspec
  · simp only [hr]
    constructor
    · intro h
      exact ⟨g0, (releaseSearch_eq_iff_codeTagSpec _ _).mp hr, h⟩
    · rintro ⟨g, hspec, hinf⟩
      rw [← releaseSearch_eq_iff_codeTagSpec, hr] at hspec
      injection hspec with h'
      subst h'
      exact hinf

/-- C2 counterexample: for the filename `a-b-c.x` the regex captures `b-c`
at the FIRST `-`, so for the version description `c` the presented entry is
not marked sync — while the claim's rule (text between the LAST `-` and the
first `.` or `[`) extracts the non-empty tag `c`, which does occur in the
version description, so the claim predicts a sync mark. -/
theorem c2_counterexample :
    claimSync "a-b-c.x" "c" = true ∧
    syncMatch "a-b-c.x" "c" = false ∧
    display_subs envBase [SubItem.mk "English" "c" false "L"] "u" "a-b-c.x" =
      [Effect.addDirectoryItem
        "plugin://s?action=download&link=L&ref=u&filename=a-b-c.x"
        (ListItem.mk "English" "c" "English" false false)] := by decide

/-- C2 (amended): each presented entry carries the sync marker exactly when
the tag that `release_re` captures — the possibly-empty text starting after
the FIRST `-` of the filename from which a group-ending position is
reachable and running to the nearest such position (a `.`, or a `[` whose
bracket group closes with `].`) — appears case-insensitively as a substring
of that subtitle's version description; an empty capture occurs in every
description, and the tag is not taken at the last `-`. -/
theorem c2_sync_marker (env : Env) (subs : List SubItem) (u fname : String)
    (i : Nat) (url : String) (li : ListItem)
    (hGet : (display_subs env subs u fname)[i]? =
      some (Effect.addDirectoryItem url li)) :
    ∃ item, subs[i]? = some item ∧
      (li.sync = true ↔ ∃ g, CodeTagSpec fname.data g ∧
        listInfix (pyLowerChars g) (pyLowerChars item.version.data) = true) := by
  unfold display_subs at hGet
  rw [List.getElem?_map] at hGet
  cases hs : subs[i]? with
  | none =>
    rw [hs] at hGet
    cases hGet
  | some item =>
    rw [hs] at hGet
    simp only [Option.map_some'] at hGet
    injection hGet with hEq
    injection hEq with h1 h2
    subst h2
    exact ⟨item, rfl, syncMatch_iff_spec fname item.version⟩

/-- Witness for C2's amended statement: a release-group filename whose tag
occurs in the version description, evaluated through `display_subs`. -/
theorem c2_sync_marker_witness :
    ∃ item,
      ([SubItem.mk "English" "720p LOL web" false "L"] : List SubItem)[0]? =
        some item ∧
      ((ListItem.mk "English" "720p LOL web" "English" false true).sync = true ↔
        ∃ g, CodeTagSpec "Show-LOL.mkv".data g ∧
          listInfix (pyLowerChars g) (pyLowerChars item.version.data) = true) :=
  c2_sync_marker envBase [SubItem.mk "English" "720p LOL web" false "L"] "u"
    "Show-LOL.mkv" 0
    "plugin://s?action=download&link=L&ref=u&filename=Show-LOL.mkv"
    (ListItem.mk "English" "720p LOL web" "English" false true)
    (by decide)

/-! ## C1 -/

/-- `countEnd` distributes over append. -/
theorem countEnd_append (l1 l2 : List Effect) :
    countEnd (l1 ++ l2) = countEnd l1 + countEnd l2 := by
  simp [countEnd, List.filter_append]

/-- `display_subs` emits no end-of-listing signal. -/
theorem countEnd_display (env : Env) (s : List SubItem) (u f : String) :
    countEnd (display_subs env s u f) = 0 := by
  unfold countEnd display_subs
  simp [isEndSignal]

/-- `extract_episode_data` emits no end-of-listing signal. -/
theorem countEnd_extract (env : Env) :
    countEnd (extract_episode_data env).1 = 0 := by
  rcases extract_effects env with h | h <;> rw [h] <;> rfl

/-- `download_subs` emits no end-of-listing signal. -/
theorem countEnd_download (env : Env) (l r f : String) (fs : Fs) :
    countEnd (download_subs env l r f fs).2.1 = 0 := by
  unfold download_subs
  cases env.download_outcome <;> cases fs <;>
    simp [countEnd_append, countEnd, isEndSignal]

/-- `search_subs` emits no end-of-listing signal. -/
theorem search_subs_no_end (env : Env) (params : Params) :
    countEnd (search_subs env params).1 = 0 := by
  simp only [search_subs]
  repeat' split
  all_goals
    first
    | rfl
    | exact countEnd_extract env
    | (simp only [countEnd_append, countEnd_extract, countEnd_display];
       simp [countEnd, isEndSignal])

/-- `search_subs` returns normally whenever the `languages` key is present,
the query source is available, neither provider search call reports the
daily limit, and the selection dialog returns an in-range index. -/
theorem search_subs_result_ok (env : Env) (params : Params)
    (hLang : ∃ L, lookupLast params "languages" = some L)
    (hQuery : lookupLast params "action" = some "search" ∨
      ∃ q, lookupLast params "searchstring" = some q)
    (hNoDL : ∀ q ls, env.search_episode q ls ≠ SearchOutcome.dailyLimit)
    (hNoDLg : ∀ l ls, env.get_episode l ls ≠ GetOutcome.dailyLimit)
    (hSel : ∀ opts : List String, env.selectChoice opts < (opts.length : Int)) :
    (search_subs env params).2 = Except.ok () := by
  obtain ⟨L, hL⟩ := hLang
  simp only [search_subs, hL]
  rcases hE : (extract_episode_data env).2 with e | ed <;> simp only [hE]
  split
  · rename_i e heq
    exfalso
    by_cases hA : lookupLast params "action" = some "search"
    · rw [if_pos hA] at heq
      cases heq
    · rw [if_neg hA] at heq
      obtain ⟨q0, hS⟩ := hQuery.resolve_left hA
      rw [hS] at heq
      cases heq
  · split
    · rfl
    · cases hse : env.search_episode _ _ with
      | connectionFailure => rfl
      | noSubsFound => rfl
      | dailyLimit => exact absurd hse (hNoDL _ _)
      | ok results =>
        cases results with
        | single e => rfl
        | multiple items =>
          dsimp only
          have hsel := hSel (items.map Candidate.title)
          rw [List.length_map] at hsel
          by_cases hpos : 0 ≤ env.selectChoice (items.map Candidate.title)
          · rw [if_pos hpos]
            have hlt : (env.selectChoice (items.map Candidate.title)).toNat <
                items.length := by omega
            cases hg : items.get? (env.selectChoice
                (items.map Candidate.title)).toNat with
            | none =>
              rw [List.get?_eq_none] at hg
              omega
            | some chosen =>
              dsimp only
              cases hge : env.get_episode chosen.link
                  (env.get_languages (pySplitComma (pyUnquotePlus L))) with
              | connectionFailure => rfl
              | noSubsFound => rfl
              | dailyLimit => exact absurd hge (hNoDLg _ _)
              | ok e2 => rfl
          · rw [if_neg hpos]

/-- C1 counterexample: with a well-formed `search` paramstring and a
provider whose episode search reports the daily limit, the uncaught
`DailyLimitError` escapes the router and the end-of-listing signal is never
emitted; likewise, with a well-formed `download` paramstring and a provider
download that signals no-match, the uncaught `SubsSearchError` escapes the
router and the end-of-listing signal is never emitted. -/
theorem c1_counterexample :
    (router envSearchLimit [("action", "search"), ("languages", "en")]
        none).2.2 = Except.error PyExc.dailyLimitExceeded ∧
    countEnd (router envSearchLimit [("action", "search"), ("languages", "en")]
        none).2.1 = 0 ∧
    ¬ ((router envSearchLimit [("action", "search"), ("languages", "en")]
          none).2.2 = Except.ok () ∧
       countEnd (router envSearchLimit
          [("action", "search"), ("languages", "en")] none).2.1 = 1) ∧
    (router envDownloadNoMatch
        [("action", "download"), ("link", "L"), ("ref", "R"),
         ("filename", "f.mkv")] none).2.2 =
      Except.error PyExc.subsSearchError ∧
    countEnd (router envDownloadNoMatch
        [("action", "download"), ("link", "L"), ("ref", "R"),
         ("filename", "f.mkv")] none).2.1 = 0 := by
  decide

/-- `download_subs` returns normally unless the provider download signals
no-match — the one condition the download flow's handlers do not cover. -/
theorem download_subs_result_ok (env : Env) (l r f : String) (fs : Fs)
    (h : env.download_outcome ≠ DownloadOutcome.noSubsFound) :
    (download_subs env l r f fs).2.2 = Except.ok () := by
  unfold download_subs
  cases hdo : env.download_outcome with
  | connectionFailure => rfl
  | noSubsFound => exact absurd hdo h
  | dailyLimit => rfl
  | ok => rfl

/-- C1 (amended): for every well-formed invocation — `action` one of
`search`/`manualsearch`/`download` with its action-specific keys present —
in which neither of the provider's two search operations reports the daily
limit (the download flow catches it, the search flow does not), the
provider's download operation does not report no-match (the search flow
catches it, the download flow does not), and the host's selection dialog
returns an in-range index or cancel, the router returns normally and emits
the end-of-listing signal exactly once, regardless of how many items were
produced and regardless of connectivity, identity-resolution,
no-results-during-search, daily-limit-during-download or
selection-cancelled conditions inside the flows. -/
theorem c1_router_end_signal (env : Env) (params : Params) (fs : Fs)
    (a : String) (hAct : lookupLast params "action" = some a)
    (hA3 : a = "search" ∨ a = "manualsearch" ∨ a = "download")
    (hLang : a = "search" ∨ a = "manualsearch" →
      ∃ L, lookupLast params "languages" = some L)
    (hStr : a = "manualsearch" → ∃ q, lookupLast params "searchstring" = some q)
    (hDl : a = "download" → ∃ l r f, lookupLast params "link" = some l ∧
      lookupLast params "ref" = some r ∧
      lookupLast params "filename" = some f)
    (hNoDL : ∀ q ls, env.search_episode q ls ≠ SearchOutcome.dailyLimit)
    (hNoDLg : ∀ l ls, env.get_episode l ls ≠ GetOutcome.dailyLimit)
    (hNoNM : env.download_outcome ≠ DownloadOutcome.noSubsFound)
    (hSel : ∀ opts : List String, env.selectChoice opts < (opts.length : Int)) :
    (router env params fs).2.2 = Except.ok () ∧
      countEnd (router env params fs).2.1 = 1 := by
  unfold router
  rw [hAct]
  dsimp only
  rcases hA3 with rfl | rfl | rfl
  · rw [if_pos (Or.inl rfl)]
    have hok := search_subs_result_ok env params (hLang (Or.inl rfl))
      (Or.inl hAct) hNoDL hNoDLg hSel
    simp only [hok]
    refine ⟨trivial, ?_⟩
    rw [countEnd_append, search_subs_no_end]
    rfl
  · rw [if_pos (Or.inr rfl)]
    have hok := search_subs_result_ok env params (hLang (Or.inr rfl))
      (Or.inr (hStr rfl)) hNoDL hNoDLg hSel
    simp only [hok]
    refine ⟨trivial, ?_⟩
    rw [countEnd_append, search_subs_no_end]
    rfl
  · rw [if_neg (by simp), if_pos rfl]
    obtain ⟨l, r, f, h1, h2, h3⟩ := hDl rfl
    rw [h1, h2, h3]
    dsimp only
    have hok := download_subs_result_ok env l r (pyUnquotePlus f) fs hNoNM
    simp only [hok]
    refine ⟨by trivial, ?_⟩
    rw [countEnd_append, countEnd_download]
    rfl

/-- Witness for C1's amended statement: a benign provider and a well-formed
`search` paramstring. -/
theorem c1_router_end_signal_witness :
    (router envBase [("action", "search"), ("languages", "en")] none).2.2 =
      Except.ok () ∧
    countEnd (router envBase [("action", "search"), ("languages", "en")]
      none).2.1 = 1 :=
  c1_router_end_signal envBase [("action", "search"), ("languages", "en")]
    none "search" (by decide) (Or.inl rfl)
    (fun _ => ⟨"en", by decide⟩) (fun h => absurd h (by decide))
    (fun h => absurd h (by decide))
    (fun _ _ h => SearchOutcome.noConfusion h)
    (fun _ _ h => GetOutcome.noConfusion h)
    (fun h => DownloadOutcome.noConfusion h)
    (fun opts => by show (-1 : Int) < (opts.length : Int); omega)
